import Mathlib

/-!
Shallow embedding of the timeline consistency and export orchestration core
of the termivoxed video voice-over tool, together with proofs about its
behaviour.

Conventions used throughout:
* Times in seconds are modelled as rationals (`ℚ`); the Python source uses
  floats, but every verified property concerns the comparison/arithmetic
  logic, not float rounding.
* Word-timing ticks (100-nanosecond units) are modelled as integers.
* External effects (FFmpeg probes, the filesystem, the synthesis provider)
  are modelled as explicit parameters: a probe is a function from a path to
  an optional measured duration, and the export pipeline's collaborator
  outcomes are boolean inputs.
* Python's in-place mutation of objects becomes explicit state passing:
  each mutating method returns the updated value.
-/

/-- One timeline segment, translated from `src/models/segment.py` (`Segment`
dataclass).  The subtitle-styling fields (font, size, colours, border,
shadow, `sync_mode`) are never consulted by any verified operation and are
elided; all fields read by `validate`, `Timeline` operations and the export
pipeline are kept. -/
structure Segment where
  id : String
  name : String
  start_time : ℚ
  end_time : ℚ
  text : String
  language : String
  voice_id : String
  rate : String
  volume : String
  pitch : String
  audio_path : Option String
  subtitle_path : Option String
  video_id : Option String
deriving DecidableEq, Repr

/-- Python's `str.strip()`: remove whitespace from both ends. -/
def pyStrip (s : String) : String :=
  String.mk (((s.toList.dropWhile Char.isWhitespace).reverse.dropWhile
    Char.isWhitespace).reverse)

/-- `Segment.validate` from `src/models/segment.py`: returns
`(is_valid, error_message)`, checking in order: inverted times, empty text
(after stripping whitespace), negative start, empty language. -/
def Segment.validate (s : Segment) : Bool × Option String :=
  if s.end_time ≤ s.start_time then
    (false, some "End time must be greater than start time")
  else if pyStrip s.text = "" then
    (false, some "Text cannot be empty")
  else if s.start_time < 0 then
    (false, some "Start time cannot be negative")
  else if s.language = "" then
    (false, some "Language must be specified")
  else
    (true, none)

/-- `Segment.duration` property: `end_time - start_time`. -/
def Segment.duration (s : Segment) : ℚ :=
  s.end_time - s.start_time

/-- Ordering of segments by `start_time`, the key used by every
`segments.sort(key=lambda s: s.start_time)` call in the source. -/
def segStartLE (a b : Segment) : Prop :=
  a.start_time ≤ b.start_time

instance : DecidableRel segStartLE :=
  fun a b => inferInstanceAs (Decidable (a.start_time ≤ b.start_time))

instance : IsTotal Segment segStartLE :=
  ⟨fun a b => le_total a.start_time b.start_time⟩

instance : IsTrans Segment segStartLE :=
  ⟨fun _ _ _ h1 h2 => le_trans h1 h2⟩

/-- Python's `list.sort` is a stable sort by key; `List.insertionSort` with
the same key relation is also stable, so the two agree on every input. -/
def sortSegments (l : List Segment) : List Segment :=
  List.insertionSort segStartLE l

/-- The timeline of one video, from `src/models/timeline.py` (`Timeline`).
`video_duration` is probed once at construction; the cached stream-info
dictionary (`video_info`) is never consulted by the verified operations and
is elided. -/
structure Timeline where
  video_path : String
  video_id : Option String
  video_duration : ℚ
  segments : List Segment
deriving DecidableEq, Repr

/-- The segment object built at the top of `Timeline.add_segment`.  The
`uuid4` identity is modelled as a caller-supplied fresh id `newId`; the
dataclass defaults (`rate`, `volume`, `pitch`, artifact paths) are as in
`src/models/segment.py`. -/
def Timeline.mkNewSegment (t : Timeline) (newId : String) (start stop : ℚ)
    (text voice language : String) (name : Option String) : Segment :=
  { id := newId
    name := name.getD ("Segment " ++ toString (t.segments.length + 1))
    start_time := start
    end_time := stop
    text := text
    language := language
    voice_id := voice
    rate := "+0%"
    volume := "+0%"
    pitch := "+0Hz"
    audio_path := none
    subtitle_path := none
    video_id := t.video_id }

/-- `Timeline.add_segment` from `src/models/timeline.py`: builds the
segment, runs `Segment.validate` (raising `ValueError` on failure, modelled
as `Except.error`), rejects an end time beyond the video duration, then
appends and re-sorts by `start_time`.  Note: the method performs no overlap
check against existing segments. -/
def Timeline.add_segment (t : Timeline) (newId : String) (start stop : ℚ)
    (text voice language : String) (name : Option String) :
    Except String (Segment × Timeline) :=
  let segment := t.mkNewSegment newId start stop text voice language name
  if (segment.validate).1 = false then
    Except.error ("Invalid segment: " ++ ((segment.validate).2.getD ""))
  else if t.video_duration < stop then
    Except.error "Segment end exceeds video duration"
  else
    Except.ok (segment, { t with segments := sortSegments (t.segments ++ [segment]) })

/-- `Timeline.remove_segment`: drops every segment whose id matches and
reports whether anything was removed. -/
def Timeline.remove_segment (t : Timeline) (segment_id : String) : Bool × Timeline :=
  let kept := t.segments.filter (fun s => !(s.id = segment_id : Bool))
  (kept.length < t.segments.length, { t with segments := kept })

/-- `Timeline.get_segment_by_id`: first segment with the given id. -/
def Timeline.get_segment_by_id (t : Timeline) (segment_id : String) : Option Segment :=
  t.segments.find? (fun s => s.id = segment_id)

/-- The keyword arguments accepted by `Timeline.update_segment`; a `none`
field is an absent keyword.  Every field here is an attribute of `Segment`,
so the source's `hasattr` guard is always satisfied. -/
structure SegmentUpdate where
  start_time : Option ℚ
  end_time : Option ℚ
  text : Option String
  language : Option String
  voice_id : Option String
  name : Option String
deriving DecidableEq, Repr

/-- The `setattr` loop of `update_segment`: each supplied field overwrites
the segment's attribute in place. -/
def Segment.applyUpdate (s : Segment) (u : SegmentUpdate) : Segment :=
  { s with
    start_time := u.start_time.getD s.start_time
    end_time := u.end_time.getD s.end_time
    text := u.text.getD s.text
    language := u.language.getD s.language
    voice_id := u.voice_id.getD s.voice_id
    name := u.name.getD s.name }

/-- In-place mutation of the first segment with the given id (Python
mutates the object returned by `get_segment_by_id`, which is the first
match in the list). -/
def updateFirst (segment_id : String) (u : SegmentUpdate) : List Segment → List Segment
  | [] => []
  | s :: rest =>
    if s.id = segment_id then s.applyUpdate u :: rest
    else s :: updateFirst segment_id u rest

/-- `Timeline.update_segment` from `src/models/timeline.py`: looks the
segment up, applies all supplied fields, and only then validates.  On
validation failure it returns `false` WITHOUT undoing the mutation.  The
list is re-sorted only when `start_time` was among the supplied fields and
validation succeeded. -/
def Timeline.update_segment (t : Timeline) (segment_id : String) (u : SegmentUpdate) :
    Bool × Timeline :=
  match t.get_segment_by_id segment_id with
  | none => (false, t)
  | some s =>
    let mutated := { t with segments := updateFirst segment_id u t.segments }
    if ((s.applyUpdate u).validate).1 = false then
      (false, mutated)
    else if u.start_time.isSome then
      (true, { mutated with segments := sortSegments mutated.segments })
    else
      (true, mutated)

/-- The interval-intersection test of `Timeline.check_overlaps`:
`not (seg1.end_time <= seg2.start_time or seg2.end_time <= seg1.start_time)`. -/
def segOverlapB (a b : Segment) : Bool :=
  !(decide (a.end_time ≤ b.start_time) || decide (b.end_time ≤ a.start_time))

/-- The nested loop of `Timeline.check_overlaps` on a segment list: all
pairs `(seg1, seg2)` with `seg1` before `seg2` whose `[start,end)` ranges
intersect. -/
def checkOverlapsList : List Segment → List (Segment × Segment)
  | [] => []
  | s :: rest =>
    (rest.filter (fun s2 => segOverlapB s s2)).map (fun s2 => (s, s2))
      ++ checkOverlapsList rest

/-- `Timeline.check_overlaps` from `src/models/timeline.py`. -/
def Timeline.check_overlaps (t : Timeline) : List (Segment × Segment) :=
  checkOverlapsList t.segments

example :
    (Timeline.add_segment ⟨"v.mp4", none, 60, []⟩ "s1" 10 20 "hello" "voice" "en" none).isOk
      = true := by decide

/-! ## Duration reconciliation (`ExportPipeline._validate_audio_lengths`) -/

/-- The body of the `_validate_audio_lengths` loop for one segment, from
`src/core/export_pipeline.py` lines 377-434.  `probe` models
`FFmpegUtils.get_media_duration` on the segment's audio file combined with
the `os.path.exists` check (`none` when the path is missing, unreadable or
the probe fails); a probed duration of `0` is falsy in Python and is also
skipped.  `next_start` is the start of the next segment in sorted order
(`none` for the last segment, in which case the bound is the video
duration).  The segment is auto-extended to `start_time + audio_duration`
only when the audio exceeds the declared duration by more than the one
second tolerance AND the new end fits below the bound; otherwise it is left
unchanged (the audio is truncated at export). -/
def reconcileOne (probe : String → Option ℚ) (video_duration : ℚ)
    (s : Segment) (next_start : Option ℚ) : Segment :=
  match s.audio_path with
  | none => s
  | some p =>
    match probe p with
    | none => s
    | some audio_duration =>
      if audio_duration = 0 then s
      else
        let segment_duration := s.end_time - s.start_time
        if segment_duration + 1 < audio_duration then
          let new_end_time := s.start_time + audio_duration
          let max_allowed_end := next_start.getD video_duration
          if new_end_time ≤ max_allowed_end then
            { s with end_time := new_end_time }
          else
            s
        else
          s

/-- The loop of `_validate_audio_lengths` over the sorted segment list:
each segment is reconciled against the start of its successor.  Only
`end_time` is ever mutated, so the successor's `start_time` read by the
loop is unaffected by earlier iterations, as in the source. -/
def reconcileSorted (probe : String → Option ℚ) (video_duration : ℚ) :
    List Segment → List Segment
  | [] => []
  | s :: rest =>
    reconcileOne probe video_duration s (rest.head?.map Segment.start_time)
      :: reconcileSorted probe video_duration rest

/-- `ExportPipeline._validate_audio_lengths`: sorts the segments by
`start_time` and reconciles each one in order.  The Python method mutates
the shared segment objects in place; here the reconciled segments are
returned in sorted order (the timeline holds the same multiset). -/
def validateAudioLengths (probe : String → Option ℚ) (video_duration : ℚ)
    (segments : List Segment) : List Segment :=
  reconcileSorted probe video_duration (sortSegments segments)

/-! ## Scenario fixtures -/

/-- A fresh 60-second timeline for Scenario A. -/
def timelineA : Timeline :=
  { video_path := "video.mp4", video_id := none, video_duration := 60, segments := [] }

/-- Scenario A, first call: add `[10,20)`. -/
def timelineA1 : Except String (Segment × Timeline) :=
  timelineA.add_segment "seg-1" 10 20 "first voice-over" "en-US-AvaMultilingualNeural" "en" none

/-- Scenario A, second call: add `[15,25)` on the resulting timeline. -/
def timelineA2 : Except String (Segment × Timeline) :=
  match timelineA1 with
  | Except.ok r => r.2.add_segment "seg-2" 15 25 "second voice-over" "en-US-AvaMultilingualNeural" "en" none
  | Except.error e => Except.error e

/-- The timeline after both Scenario A calls. -/
def timelineAfterA : Timeline :=
  match timelineA2 with
  | Except.ok r => r.2
  | Except.error _ => timelineA

/-! ## Claim C1: overlap behaviour of `add_segment` -/

/-- C1 counterexample: on a fresh 60-second timeline, `add_segment [10,20)`
succeeds and then `add_segment [15,25)` ALSO succeeds (it is not rejected
with an `Overlaps` error), leaving two segments of the same timeline with
intersecting `[start,end)` ranges, as `check_overlaps` itself reports. -/
theorem scenarioA_overlap_admitted :
    timelineA1.isOk = true ∧ timelineA2.isOk = true ∧
      timelineAfterA.check_overlaps.length = 1 := by
  decide

/-- C1 (amended): `Timeline.add_segment` succeeds exactly when the new
segment passes `Segment.validate` and its end does not exceed the video
duration; no overlap test against existing segments is consulted.  In
particular, in Scenario A the second add succeeds and the overlap is
reported only by the separate `check_overlaps` audit. -/
theorem add_segment_ignores_overlaps :
    (∀ (t : Timeline) (newId : String) (start stop : ℚ)
        (txt voice language : String) (nm : Option String),
      (t.add_segment newId start stop txt voice language nm).isOk =
        (((t.mkNewSegment newId start stop txt voice language nm).validate).1
          && decide (stop ≤ t.video_duration))) ∧
    timelineA2.isOk = true ∧ timelineAfterA.check_overlaps.length = 1 := by
  refine ⟨?_, by decide, by decide⟩
  intro t newId start stop txt voice language nm
  cases hb : ((t.mkNewSegment newId start stop txt voice language nm).validate).1 with
  | false => simp [Timeline.add_segment, hb, Except.isOk, Except.toBool]
  | true =>
    by_cases h2 : t.video_duration < stop
    · simp [Timeline.add_segment, hb, h2, Except.isOk, Except.toBool, not_le.mpr h2]
    · simp [Timeline.add_segment, hb, h2, Except.isOk, Except.toBool, not_lt.mp h2]

/-! ## Claim C10: `update_segment` mutates before validating -/

theorem mem_updateFirst_of_find? (segment_id : String) (u : SegmentUpdate) :
    ∀ (l : List Segment) (s : Segment),
      l.find? (fun x => x.id = segment_id) = some s →
      s.applyUpdate u ∈ updateFirst segment_id u l := by
  intro l
  induction l with
  | nil => intro s h; simp [List.find?] at h
  | cons a rest ih =>
    intro s h
    by_cases ha : a.id = segment_id
    · rw [List.find?_cons_of_pos _ (by simp [ha])] at h
      cases h
      simp [updateFirst, ha]
    · rw [List.find?_cons_of_neg _ (by simp [ha])] at h
      simp only [updateFirst, if_neg ha]
      exact List.mem_cons_of_mem _ (ih s h)

/-- C10: when `update_segment` finds the segment but the updated field
values fail `Segment.validate`, it returns `false` while the timeline keeps
the mutated (invalid) segment: the mutation is applied before validation
and is not rolled back. -/
theorem update_segment_keeps_invalid_mutation (t : Timeline)
    (segment_id : String) (u : SegmentUpdate) (s : Segment)
    (hfind : t.get_segment_by_id segment_id = some s)
    (hinvalid : ((s.applyUpdate u).validate).1 = false) :
    t.update_segment segment_id u =
      (false, { t with segments := updateFirst segment_id u t.segments }) ∧
    s.applyUpdate u ∈ (t.update_segment segment_id u).2.segments := by
  have hmem : s.applyUpdate u ∈ updateFirst segment_id u t.segments :=
    mem_updateFirst_of_find? segment_id u t.segments s hfind
  unfold Timeline.update_segment
  rw [hfind]
  simp only [hinvalid]
  exact ⟨rfl, hmem⟩

/-- Concrete fixture for the C10 witness: a valid segment `[10,20)`. -/
def segU : Segment :=
  { id := "u1", name := "U", start_time := 10, end_time := 20,
    text := "hello there", language := "en", voice_id := "v",
    rate := "+0%", volume := "+0%", pitch := "+0Hz",
    audio_path := none, subtitle_path := none, video_id := none }

/-- Timeline holding `segU`. -/
def timelineU : Timeline :=
  { video_path := "video.mp4", video_id := none, video_duration := 60,
    segments := [segU] }

/-- The invalid update for the C10 witness: `end_time := 5 ≤ start_time`. -/
def updU : SegmentUpdate :=
  { start_time := none, end_time := some 5, text := none,
    language := none, voice_id := none, name := none }

/-- C10 witness: the concrete update fails validation yet the returned
timeline contains the segment with the invalid `end_time = 5`. -/
theorem update_segment_keeps_invalid_mutation_witness :
    timelineU.update_segment "u1" updU =
      (false, { timelineU with segments := updateFirst "u1" updU timelineU.segments }) ∧
    segU.applyUpdate updU ∈ (timelineU.update_segment "u1" updU).2.segments :=
  update_segment_keeps_invalid_mutation timelineU "u1" updU segU (by decide) (by decide)

/-! ## Claim C2: reconciliation policy -/

/-- Fixture for Scenario B: segment `[10,20)` whose synthesized audio is
14 seconds long. -/
def segB : Segment :=
  { id := "b1", name := "B", start_time := 10, end_time := 20,
    text := "scenario b", language := "en", voice_id := "v",
    rate := "+0%", volume := "+0%", pitch := "+0Hz",
    audio_path := some "segB.mp3", subtitle_path := none, video_id := none }

/-- Probe for Scenario B. -/
def probeB : String → Option ℚ :=
  fun p => if p = "segB.mp3" then some 14 else none

/-- Fixture for Scenario C: segment `[10,20)` with 16 seconds of audio. -/
def segC1 : Segment :=
  { segB with id := "c1", name := "C1", audio_path := some "segC1.mp3" }

/-- Fixture for Scenario C: the following segment, starting at 23 s. -/
def segC2 : Segment :=
  { segB with
    id := "c2"
    name := "C2"
    start_time := 23
    end_time := 33
    audio_path := none }

/-- Probe for Scenario C. -/
def probeC : String → Option ℚ :=
  fun p => if p = "segC1.mp3" then some 16 else none

/-- Fixture for the C2 counterexample: segment `[10,20)` whose audio is
11 seconds long, exceeding the declared duration by exactly the one-second
tolerance. -/
def segX : Segment :=
  { segB with id := "x1", name := "X", audio_path := some "segX.mp3" }

/-- Probe for the C2 counterexample. -/
def probeX : String → Option ℚ :=
  fun p => if p = "segX.mp3" then some 11 else none

/-- C2 counterexample: for `[10,20)` with measured audio `A = 11 > D = 10`
and ample headroom (`start + A = 21 ≤ V = 60`, no following segment), the
claim demands `end_time := start + A = 21`, but reconciliation leaves the
segment unchanged: the code only extends when the audio exceeds the
declared duration by MORE than a one-second tolerance
(`audio_duration > segment_duration + 1.0`). -/
theorem reconcile_small_excess_not_extended :
    validateAudioLengths probeX 60 [segX] = [segX] ∧
    probeX "segX.mp3" = some 11 ∧
    segX.end_time - segX.start_time < 11 ∧
    segX.start_time + 11 ≤ 60 := by
  refine ⟨?_, rfl, by norm_num [segX, segB], by norm_num [segX, segB]⟩
  norm_num [validateAudioLengths, sortSegments, List.insertionSort,
    reconcileSorted, reconcileOne, segX, segB, probeX]

/-- C2 (amended): reconciliation leaves a segment unchanged whenever the
measured audio duration `A` is within the one-second tolerance above the
declared duration `D` (`A ≤ D + 1`); when `A > D + 1` and `start + A` fits
below the next segment's start (or the video duration for the last
segment) it sets `end_time := start_time + A`; when `A > D + 1` but the
extension does not fit, it mutates nothing and the audio is truncated at
export (a warning naming the audio and declared durations is logged).
Scenario B reconciles `[10,20)` with `A = 14` to `end_time = 24`;
Scenario C (`A = 16`, next segment starting at 23) mutates nothing. -/
theorem reconcile_tolerance_cases :
    (∀ (probe : String → Option ℚ) (V : ℚ) (s : Segment) (ns : Option ℚ)
        (p : String) (A : ℚ),
      s.audio_path = some p → probe p = some A → 0 < A →
      ((A ≤ s.end_time - s.start_time + 1 → reconcileOne probe V s ns = s) ∧
       (s.end_time - s.start_time + 1 < A → s.start_time + A ≤ ns.getD V →
          reconcileOne probe V s ns = { s with end_time := s.start_time + A }) ∧
       (s.end_time - s.start_time + 1 < A → ns.getD V < s.start_time + A →
          reconcileOne probe V s ns = s))) ∧
    validateAudioLengths probeB 60 [segB] = [{ segB with end_time := 24 }] ∧
    validateAudioLengths probeC 60 [segC1, segC2] = [segC1, segC2] := by
  refine ⟨?_, ?_, ?_⟩
  · intro probe V s ns p A hp hA hApos
    refine ⟨?_, ?_, ?_⟩
    · intro hle
      simp [reconcileOne, hp, hA, hApos.ne', not_lt.mpr hle]
    · intro hgt hfit
      simp [reconcileOne, hp, hA, hApos.ne', hgt, hfit]
    · intro hgt hnofit
      simp [reconcileOne, hp, hA, hApos.ne', hgt, not_le.mpr hnofit]
  · norm_num [validateAudioLengths, sortSegments, List.insertionSort,
      reconcileSorted, reconcileOne, segB, probeB]
  · norm_num [validateAudioLengths, sortSegments, List.insertionSort,
      List.orderedInsert, segStartLE, reconcileSorted, reconcileOne,
      segC1, segC2, segB, probeC]

/-- C2 witness: the general extension case of `reconcile_tolerance_cases`
applied to Scenario B's concrete numbers. -/
theorem reconcile_tolerance_cases_witness :
    reconcileOne probeB 60 segB none = { segB with end_time := 24 } := by
  have h := (reconcile_tolerance_cases.1 probeB 60 segB none "segB.mp3" 14
    rfl rfl (by norm_num)).2.1 (by norm_num [segB]) (by norm_num [segB])
  norm_num [segB] at h ⊢
  exact h

/-! ## Claims C3 and C7: reconciliation invariants and idempotence -/

/-- Two segments' `[start,end)` ranges do not intersect (the negation of
the `check_overlaps` intersection test). -/
def segDisjoint (a b : Segment) : Prop :=
  a.end_time ≤ b.start_time ∨ b.end_time ≤ a.start_time

instance : DecidableRel segDisjoint :=
  fun _ _ => inferInstanceAs (Decidable (_ ∨ _))

theorem reconcileOne_cases (probe : String → Option ℚ) (V : ℚ) (s : Segment)
    (ns : Option ℚ) :
    reconcileOne probe V s ns = s ∨
    (reconcileOne probe V s ns
        = { s with end_time := (reconcileOne probe V s ns).end_time } ∧
      s.end_time < (reconcileOne probe V s ns).end_time ∧
      (reconcileOne probe V s ns).end_time ≤ ns.getD V) := by
  rcases Option.eq_none_or_eq_some s.audio_path with hap | ⟨p, hap⟩
  · left; simp [reconcileOne, hap]
  · rcases Option.eq_none_or_eq_some (probe p) with hpr | ⟨A, hpr⟩
    · left; simp [reconcileOne, hap, hpr]
    · by_cases h0 : A = 0
      · left; simp [reconcileOne, hap, hpr, h0]
      · by_cases hgt : s.end_time - s.start_time + 1 < A
        · by_cases hfit : s.start_time + A ≤ ns.getD V
          · have hres : reconcileOne probe V s ns = { s with end_time := s.start_time + A } := by
              simp [reconcileOne, hap, hpr, h0, hgt, hfit]
            right
            rw [hres]
            refine ⟨rfl, ?_, ?_⟩
            · show s.end_time < s.start_time + A
              linarith
            · show s.start_time + A ≤ ns.getD V
              exact hfit
          · left; simp [reconcileOne, hap, hpr, h0, hgt, hfit]
        · left; simp [reconcileOne, hap, hpr, h0, hgt]

theorem reconcileOne_start_time (probe : String → Option ℚ) (V : ℚ)
    (s : Segment) (ns : Option ℚ) :
    (reconcileOne probe V s ns).start_time = s.start_time := by
  rcases reconcileOne_cases probe V s ns with h | ⟨h, -, -⟩
  · rw [h]
  · rw [h]

theorem reconcileSorted_map_start (probe : String → Option ℚ) (V : ℚ) :
    ∀ l : List Segment,
      (reconcileSorted probe V l).map Segment.start_time = l.map Segment.start_time
  | [] => rfl
  | s :: rest => by
    simp [reconcileSorted, reconcileOne_start_time,
      reconcileSorted_map_start probe V rest]

theorem reconcileSorted_invariant (probe : String → Option ℚ) (V : ℚ) :
    ∀ l : List Segment,
      List.Pairwise (fun a b => a.end_time ≤ b.start_time) l →
      (∀ s ∈ l, 0 ≤ s.start_time ∧ s.start_time < s.end_time ∧ s.end_time ≤ V) →
      List.Pairwise (fun a b => a.end_time ≤ b.start_time) (reconcileSorted probe V l) ∧
      (∀ s ∈ reconcileSorted probe V l,
        0 ≤ s.start_time ∧ s.start_time < s.end_time ∧ s.end_time ≤ V) := by
  intro l
  induction l with
  | nil =>
    intro _ _
    exact ⟨List.Pairwise.nil, by simp [reconcileSorted]⟩
  | cons s rest ih =>
    intro hp hb
    rw [List.pairwise_cons] at hp
    obtain ⟨hhead, hrest⟩ := hp
    have hbs := hb s (List.mem_cons_self s rest)
    have hbrest : ∀ x ∈ rest, 0 ≤ x.start_time ∧ x.start_time < x.end_time ∧ x.end_time ≤ V :=
      fun x hx => hb x (List.mem_cons_of_mem s hx)
    obtain ⟨ihp, ihb⟩ := ih hrest hbrest
    have hboundV : (rest.head?.map Segment.start_time).getD V ≤ V := by
      cases rest with
      | nil => simp
      | cons h tl =>
        have hh := hbrest h (List.mem_cons_self h tl)
        simp only [List.head?_cons, Option.map_some', Option.getD_some]
        linarith [hh.2.1, hh.2.2]
    have hboundle : ∀ t ∈ rest, (rest.head?.map Segment.start_time).getD V ≤ t.start_time := by
      intro t ht
      cases rest with
      | nil => cases ht
      | cons h tl =>
        simp only [List.head?_cons, Option.map_some', Option.getD_some]
        rcases List.mem_cons.mp ht with rfl | htl
        · exact le_refl _
        · have h1 : h.end_time ≤ t.start_time := (List.pairwise_cons.mp hrest).1 t htl
          have h2 := hbrest h (List.mem_cons_self h tl)
          linarith [h2.2.1]
    have hcase := reconcileOne_cases probe V s (rest.head?.map Segment.start_time)
    have hstart : (reconcileOne probe V s (rest.head?.map Segment.start_time)).start_time
        = s.start_time := reconcileOne_start_time probe V s _
    have hend_le : ∀ t ∈ rest,
        (reconcileOne probe V s (rest.head?.map Segment.start_time)).end_time ≤ t.start_time := by
      intro t ht
      rcases hcase with h | ⟨-, -, hle⟩
      · rw [h]; exact hhead t ht
      · exact le_trans hle (hboundle t ht)
    have hbs' : 0 ≤ (reconcileOne probe V s (rest.head?.map Segment.start_time)).start_time ∧
        (reconcileOne probe V s (rest.head?.map Segment.start_time)).start_time
          < (reconcileOne probe V s (rest.head?.map Segment.start_time)).end_time ∧
        (reconcileOne probe V s (rest.head?.map Segment.start_time)).end_time ≤ V := by
      rcases hcase with h | ⟨-, hlt, hle⟩
      · rw [h]; exact hbs
      · refine ⟨hstart ▸ hbs.1, ?_, le_trans hle hboundV⟩
        rw [hstart]
        linarith [hbs.2.1]
    constructor
    · simp only [reconcileSorted]
      rw [List.pairwise_cons]
      refine ⟨?_, ihp⟩
      intro t' ht'
      have hmap := reconcileSorted_map_start probe V rest
      have hmem : t'.start_time ∈ rest.map Segment.start_time := by
        rw [← hmap]
        exact List.mem_map_of_mem _ ht'
      obtain ⟨t, ht, hts⟩ := List.mem_map.mp hmem
      calc (reconcileOne probe V s (rest.head?.map Segment.start_time)).end_time
          ≤ t.start_time := hend_le t ht
        _ = t'.start_time := hts
    · intro x hx
      simp only [reconcileSorted] at hx
      rcases List.mem_cons.mp hx with rfl | hxs
      · exact hbs'
      · exact ihb x hxs

theorem pairwise_endle_of_sorted_disjoint (V : ℚ) (l : List Segment)
    (hsort : List.Pairwise segStartLE l)
    (hdisj : List.Pairwise segDisjoint l)
    (hb : ∀ s ∈ l, 0 ≤ s.start_time ∧ s.start_time < s.end_time ∧ s.end_time ≤ V) :
    List.Pairwise (fun a b => a.end_time ≤ b.start_time) l := by
  refine (hsort.and hdisj).imp_of_mem ?_
  intro a b ha hbmem hab
  rcases hab.2 with h | h
  · exact h
  · exfalso
    have h1 : a.start_time ≤ b.start_time := hab.1
    have h2 := hb b hbmem
    linarith [h2.2.1]

/-- C3: if the segments are pairwise non-overlapping, lie within `[0, V]`
and have positive length before reconciliation, then after
`_validate_audio_lengths` no two segments overlap and no segment's
`end_time` exceeds the video duration `V`. -/
theorem reconciliation_preserves_invariants (probe : String → Option ℚ) (V : ℚ)
    (segs : List Segment)
    (hbound : ∀ s ∈ segs, 0 ≤ s.start_time ∧ s.start_time < s.end_time ∧ s.end_time ≤ V)
    (hdisj : List.Pairwise segDisjoint segs) :
    List.Pairwise segDisjoint (validateAudioLengths probe V segs) ∧
    ∀ s ∈ validateAudioLengths probe V segs, s.end_time ≤ V := by
  have hperm : List.Perm (sortSegments segs) segs := List.perm_insertionSort segStartLE segs
  have hsort : List.Pairwise segStartLE (sortSegments segs) :=
    List.sorted_insertionSort segStartLE segs
  have hbound2 : ∀ s ∈ sortSegments segs,
      0 ≤ s.start_time ∧ s.start_time < s.end_time ∧ s.end_time ≤ V :=
    fun s hs => hbound s (hperm.subset hs)
  have hdisj2 : List.Pairwise segDisjoint (sortSegments segs) :=
    (hperm.pairwise_iff (fun {a b} h => Or.symm h)).mpr hdisj
  have hchain := pairwise_endle_of_sorted_disjoint V _ hsort hdisj2 hbound2
  obtain ⟨hp, hbb⟩ := reconcileSorted_invariant probe V _ hchain hbound2
  exact ⟨hp.imp (fun h => Or.inl h), fun s hs => (hbb s hs).2.2⟩

/-- Fixture for the C3 witness: segment `[0,5)` with 8 seconds of audio. -/
def segW1 : Segment :=
  { segB with
    id := "w1"
    name := "W1"
    start_time := 0
    end_time := 5
    audio_path := some "w1.mp3" }

/-- Fixture for the C3 witness: untouched second segment `[10,20)`. -/
def segW2 : Segment :=
  { segB with
    id := "w2"
    name := "W2"
    start_time := 10
    end_time := 20
    audio_path := none }

/-- Probe for the C3 witness. -/
def probeW : String → Option ℚ :=
  fun p => if p = "w1.mp3" then some 8 else none

/-- C3 witness: the invariant theorem applied to a concrete two-segment
timeline where the first segment gets extended. -/
theorem reconciliation_preserves_invariants_witness :
    List.Pairwise segDisjoint (validateAudioLengths probeW 30 [segW1, segW2]) ∧
    ∀ s ∈ validateAudioLengths probeW 30 [segW1, segW2], s.end_time ≤ 30 :=
  reconciliation_preserves_invariants probeW 30 [segW1, segW2]
    (by decide) (by decide)

theorem reconcileOne_idem (probe : String → Option ℚ) (V : ℚ) (s : Segment)
    (ns : Option ℚ) :
    reconcileOne probe V (reconcileOne probe V s ns) ns = reconcileOne probe V s ns := by
  rcases Option.eq_none_or_eq_some s.audio_path with hap | ⟨p, hap⟩
  · simp [reconcileOne, hap]
  · rcases Option.eq_none_or_eq_some (probe p) with hpr | ⟨A, hpr⟩
    · simp [reconcileOne, hap, hpr]
    · by_cases h0 : A = 0
      · simp [reconcileOne, hap, hpr, h0]
      · by_cases hgt : s.end_time - s.start_time + 1 < A
        · by_cases hfit : s.start_time + A ≤ ns.getD V
          · have hres : reconcileOne probe V s ns = { s with end_time := s.start_time + A } := by
              simp [reconcileOne, hap, hpr, h0, hgt, hfit]
            rw [hres]
            have hgt2 : ¬ (s.start_time + A - s.start_time + 1 < A) := by linarith
            simp [reconcileOne, hap, hpr, h0, hgt2]
          · simp [reconcileOne, hap, hpr, h0, hgt, hfit]
        · simp [reconcileOne, hap, hpr, h0, hgt]

theorem reconcileSorted_head_start (probe : String → Option ℚ) (V : ℚ)
    (l : List Segment) :
    (reconcileSorted probe V l).head?.map Segment.start_time
      = l.head?.map Segment.start_time := by
  cases l with
  | nil => rfl
  | cons s rest => simp [reconcileSorted, reconcileOne_start_time]

theorem reconcileSorted_idem (probe : String → Option ℚ) (V : ℚ) :
    ∀ l : List Segment,
      reconcileSorted probe V (reconcileSorted probe V l) = reconcileSorted probe V l
  | [] => rfl
  | s :: rest => by
    simp only [reconcileSorted]
    rw [reconcileSorted_head_start probe V rest, reconcileOne_idem,
      reconcileSorted_idem probe V rest]

theorem sortSegments_eq_of_sorted {l : List Segment}
    (h : List.Pairwise segStartLE l) : sortSegments l = l :=
  List.Sorted.insertionSort_eq h

theorem reconcileSorted_sorted (probe : String → Option ℚ) (V : ℚ)
    (l : List Segment) (h : List.Pairwise segStartLE l) :
    List.Pairwise segStartLE (reconcileSorted probe V l) := by
  have hmap := reconcileSorted_map_start probe V l
  have h1 : List.Pairwise (fun a b : ℚ => a ≤ b) (l.map Segment.start_time) :=
    List.pairwise_map.mpr (h.imp (fun hab => hab))
  rw [← hmap] at h1
  exact (List.pairwise_map.mp h1).imp (fun hab => hab)

/-- C7: `_validate_audio_lengths` is idempotent: re-running reconciliation
with the same measured audio durations mutates nothing.  An extended
segment now has `end_time = start_time + A`, so its new declared duration
equals the measured one and falls inside the one-second tolerance; an
unextended segment reproduces the very same decision. -/
theorem reconciliation_idempotent (probe : String → Option ℚ) (V : ℚ)
    (segs : List Segment) :
    validateAudioLengths probe V (validateAudioLengths probe V segs)
      = validateAudioLengths probe V segs := by
  unfold validateAudioLengths
  have hs : List.Pairwise segStartLE (reconcileSorted probe V (sortSegments segs)) :=
    reconcileSorted_sorted probe V _ (List.sorted_insertionSort segStartLE segs)
  rw [sortSegments_eq_of_sorted hs]
  exact reconcileSorted_idem probe V _

/-! ## Claim C8: multi-video compatibility and combination -/

/-- One source video's metadata, from `src/models/video.py` (`Video`
dataclass).  The owning `Timeline` back-reference and creation timestamp
are elided: `check_compatibility` and the combiner read only the metadata
fields below.  `orientation` is `horizontal`, `vertical` or `square`
(or `none` when the probe failed). -/
structure Video where
  id : String
  name : String
  path : String
  order : ℤ
  duration : Option ℚ
  width : Option ℤ
  height : Option ℤ
  fps : Option ℚ
  codec : Option String
  aspect_ratio : Option ℚ
  orientation : Option String
deriving DecidableEq, Repr

/-- The warnings emitted by `VideoCombiner.check_compatibility`, modelled
structurally instead of as the source's interpolated message strings. -/
inductive CombineWarning where
  | incompatibleOrientations : CombineWarning
  | differentAspectRatios : CombineWarning
  | differentResolutions : CombineWarning
  | differentFrameRates : CombineWarning
  | differentCodecs : CombineWarning
deriving DecidableEq, Repr

/-- The `common_specs` dictionary built by `check_compatibility`. -/
structure CommonSpecs where
  width : ℤ
  height : ℤ
  fps : ℚ
  orientation : Option String
  needs_scaling : Bool
  needs_fps_conversion : Bool
  needs_reencoding : Bool
deriving DecidableEq, Repr

/-- Python `min` over a non-empty list (junk value 0 on `[]`). -/
def listMinQ : List ℚ → ℚ
  | [] => 0
  | x :: xs => xs.foldl min x

/-- Python `max` over a non-empty list (junk value 0 on `[]`). -/
def listMaxQ : List ℚ → ℚ
  | [] => 0
  | x :: xs => xs.foldl max x

/-- Python `max` over a non-empty list of integers (junk value 0 on `[]`). -/
def listMaxZ : List ℤ → ℤ
  | [] => 0
  | x :: xs => xs.foldl max x

/-- `[(v.width, v.height) for v in videos if v.width and v.height]`
(Python truthiness: both present and non-zero). -/
def videoResolutions (videos : List Video) : List (ℤ × ℤ) :=
  videos.filterMap (fun v =>
    match v.width, v.height with
    | some w, some h => if w = 0 ∨ h = 0 then none else some (w, h)
    | _, _ => none)

/-- `[v.fps for v in videos if v.fps]` (present and non-zero). -/
def videoFpsValues (videos : List Video) : List ℚ :=
  videos.filterMap (fun v => v.fps.bind (fun f => if f = 0 then none else some f))

/-- `[v.aspect_ratio for v in videos if v.aspect_ratio]`. -/
def videoAspectRatios (videos : List Video) : List ℚ :=
  videos.filterMap (fun v => v.aspect_ratio.bind (fun a => if a = 0 then none else some a))

/-- The codec set `{v.codec for v in videos if v.codec}`. -/
def videoCodecs (videos : List Video) : List String :=
  (videos.filterMap (fun v => v.codec.bind (fun c => if c = "" then none else some c))).dedup

/-- The target resolution: component-wise maximum, `1920x1080` when no
resolution is known. -/
def targetResolution (videos : List Video) : ℤ × ℤ :=
  match videoResolutions videos with
  | [] => (1920, 1080)
  | r :: rs => (listMaxZ ((r :: rs).map Prod.fst), listMaxZ ((r :: rs).map Prod.snd))

/-- The target frame rate: maximum, `30` when no fps is known. -/
def targetFps (videos : List Video) : ℚ :=
  match videoFpsValues videos with
  | [] => 30
  | f :: fs => listMaxQ (f :: fs)

/-- `VideoCombiner.check_compatibility` from `src/core/video_combiner.py`:
one or zero videos are trivially compatible; two different orientations are
a hard incompatibility (early return with only the orientation warning and
empty specs); otherwise warnings are accumulated for aspect-ratio spread
above `0.05`, mixed resolutions, mixed frame rates and mixed codecs, and
the common specs are returned with `compatible = true`. -/
def VideoCombiner.check_compatibility (videos : List Video) :
    Bool × List CombineWarning × Option CommonSpecs :=
  if videos.length ≤ 1 then (true, [], none)
  else if 1 < ((videos.map Video.orientation).dedup).length then
    (false, [CombineWarning.incompatibleOrientations], none)
  else
    let aspect_ratios := videoAspectRatios videos
    let arWarn : List CombineWarning :=
      match aspect_ratios with
      | [] => []
      | x :: xs =>
        if 1/20 < |listMaxQ (x :: xs) - listMinQ (x :: xs)| then
          [CombineWarning.differentAspectRatios]
        else []
    let resolutions := videoResolutions videos
    let fps_values := videoFpsValues videos
    let codecs := videoCodecs videos
    let needs_scaling := decide (1 < resolutions.dedup.length)
    let needs_fps_conversion := decide (1 < fps_values.dedup.length)
    let needs_reencoding := decide (1 < codecs.length)
    let warnings := arWarn
      ++ (if needs_scaling then [CombineWarning.differentResolutions] else [])
      ++ (if needs_fps_conversion then [CombineWarning.differentFrameRates] else [])
      ++ (if needs_reencoding then [CombineWarning.differentCodecs] else [])
    (true, warnings,
      some { width := (targetResolution videos).1
             height := (targetResolution videos).2
             fps := targetFps videos
             orientation := match videos.head? with
                            | some v => v.orientation
                            | none => none
             needs_scaling := needs_scaling
             needs_fps_conversion := needs_fps_conversion
             needs_reencoding := needs_reencoding })

/-- The specs rebuilt inside `combine_project_videos` when combination of
incompatible videos is forced (lines 289-310): all normalization flags are
set. -/
def forcedCommonSpecs (videos : List Video) : CommonSpecs :=
  { width := (targetResolution videos).1
    height := (targetResolution videos).2
    fps := targetFps videos
    orientation := match videos.head? with
                   | some v => v.orientation
                   | none => some "horizontal"
    needs_scaling := true
    needs_fps_conversion := true
    needs_reencoding := true }

/-- The two combination strategies of `VideoCombiner`. -/
inductive CombineStrategy where
  | simple : CombineStrategy
  | complex : CombineStrategy
deriving DecidableEq, Repr

/-- `VideoCombiner.combine_project_videos` from
`src/core/video_combiner.py`: checks compatibility; refuses outright (no
strategy attempted) when incompatible and not forced; otherwise picks the
complex normalizing path when forced or any `needs_*` flag is set, and the
fast concat path otherwise, falling back to the complex path if the fast
path fails.  FFmpeg subprocess outcomes are modelled by the oracle booleans
`simple_ok` / `complex_ok`; the result pairs the success flag with the list
of strategies attempted in order. -/
def VideoCombiner.combine_project_videos (videos : List Video)
    (force_export simple_ok complex_ok : Bool) : Bool × List CombineStrategy :=
  let res := VideoCombiner.check_compatibility videos
  if !res.1 && !force_export then (false, [])
  else
    let common_specs :=
      if !res.1 && force_export then
        match res.2.2 with
        | none => some (forcedCommonSpecs videos)
        | some sp => some sp
      else res.2.2
    let needs :=
      match common_specs with
      | some sp => sp.needs_scaling || sp.needs_fps_conversion || sp.needs_reencoding
      | none => false
    if force_export || needs then (complex_ok, [CombineStrategy.complex])
    else if simple_ok then (true, [CombineStrategy.simple])
    else (complex_ok, [CombineStrategy.simple, CombineStrategy.complex])

theorem one_lt_length_of_two_mem {α : Type _} {l : List α} {x y : α}
    (hx : x ∈ l) (hy : y ∈ l) (hne : x ≠ y) : 1 < l.length := by
  cases l with
  | nil => cases hx
  | cons a t =>
    cases t with
    | nil =>
      rw [List.mem_singleton] at hx hy
      exact absurd (hx.trans hy.symm) hne
    | cons b t2 => simp only [List.length_cons]; omega

/-- C8: whenever a project's videos contain two different orientations,
`check_compatibility` reports incompatibility with the orientation-mismatch
warning, and `combine_project_videos` with `force = false` refuses without
attempting either combination strategy. -/
theorem incompatible_orientations_refused (videos : List Video) (u v : Video)
    (hu : u ∈ videos) (hv : v ∈ videos) (hne : u.orientation ≠ v.orientation)
    (simple_ok complex_ok : Bool) :
    VideoCombiner.check_compatibility videos
      = (false, [CombineWarning.incompatibleOrientations], none) ∧
    VideoCombiner.combine_project_videos videos false simple_ok complex_ok
      = (false, []) := by
  have hlen : 1 < videos.length :=
    one_lt_length_of_two_mem hu hv (fun h => hne (h ▸ rfl))
  have hdedup : 1 < ((videos.map Video.orientation).dedup).length := by
    refine one_lt_length_of_two_mem (x := u.orientation) (y := v.orientation) ?_ ?_ hne
    · exact List.mem_dedup.mpr (List.mem_map_of_mem _ hu)
    · exact List.mem_dedup.mpr (List.mem_map_of_mem _ hv)
  have hcheck : VideoCombiner.check_compatibility videos
      = (false, [CombineWarning.incompatibleOrientations], none) := by
    unfold VideoCombiner.check_compatibility
    rw [if_neg (by omega), if_pos hdedup]
  refine ⟨hcheck, ?_⟩
  unfold VideoCombiner.combine_project_videos
  rw [hcheck]
  rfl

/-- A horizontal test video for the C8 witness. -/
def vidH : Video :=
  { id := "vh", name := "H", path := "h.mp4", order := 1, duration := some 60,
    width := some 1920, height := some 1080, fps := some 30, codec := some "h264",
    aspect_ratio := none, orientation := some "horizontal" }

/-- A vertical test video for the C8 witness. -/
def vidV : Video :=
  { id := "vv", name := "V", path := "v.mp4", order := 2, duration := some 60,
    width := some 1080, height := some 1920, fps := some 30, codec := some "h264",
    aspect_ratio := none, orientation := some "vertical" }

/-- C8 witness: the refusal theorem applied to one horizontal and one
vertical video. -/
theorem incompatible_orientations_refused_witness :
    VideoCombiner.check_compatibility [vidH, vidV]
      = (false, [CombineWarning.incompatibleOrientations], none) ∧
    VideoCombiner.combine_project_videos [vidH, vidV] false true true
      = (false, []) :=
  incompatible_orientations_refused [vidH, vidV] vidH vidV
    (by decide) (by decide) (by decide) true true

/-! ## Claim C5: export-run cleanup behaviour -/

/-- The collaborator outcomes that drive one `ExportPipeline.export` run
(`src/core/export_pipeline.py` lines 30-185): whether an active video
exists, whether it already has an audio stream, whether the silent-track
preprocessing succeeds, whether TTS generation raises, the part list
returned by `_process_segments`, and the concatenation / music / copy
outcomes.  `copy_raises` models `shutil.copy` raising (the only exception
possible after concatenation on the no-music path). -/
structure ExportEnv where
  has_active_video : Bool
  has_audio_stream : Bool
  add_silent_ok : Bool
  audio_gen_raises : Bool
  segment_videos : List String
  concat_ok : Bool
  has_music : Bool
  music_ok : Bool
  copy_raises : Bool
deriving DecidableEq, Repr

/-- Observable end state of one export run: which intermediate artifacts
were created and removed, and whether `active_video.path` still points at
the preprocessed copy when the call returns. -/
structure ExportResult where
  success : Bool
  parts_created : Bool
  parts_removed : Bool
  combined_created : Bool
  combined_removed : Bool
  preprocessed_created : Bool
  preprocessed_removed : Bool
  path_modified_at_end : Bool
deriving DecidableEq, Repr

/-- `ExportPipeline.export`, control flow translated branch by branch.
The `try` body's early `return False` paths (no parts, failed
concatenation, failed music mix) return WITHOUT running
`_cleanup_temp_files`, without deleting the preprocessed copy and without
restoring `active_video.path`; only the exception handler (reached when
`_generate_all_audio` or `shutil.copy` raises) restores the path and
deletes the preprocessed copy — and even it never removes the part files.
`_cleanup_temp_files` (which removes the part files and the combined file)
runs only on the success path.  Deletions themselves are modelled as always
succeeding: the source catches and logs unlink errors. -/
def ExportPipeline.export (env : ExportEnv) : ExportResult :=
  if !env.has_active_video then
    { success := false, parts_created := false, parts_removed := false,
      combined_created := false, combined_removed := false,
      preprocessed_created := false, preprocessed_removed := false,
      path_modified_at_end := false }
  else
    let preprocessed_created := !env.has_audio_stream && env.add_silent_ok
    if env.audio_gen_raises then
      { success := false, parts_created := false, parts_removed := false,
        combined_created := false, combined_removed := false,
        preprocessed_created := preprocessed_created,
        preprocessed_removed := preprocessed_created,
        path_modified_at_end := false }
    else if env.segment_videos.isEmpty then
      { success := false, parts_created := false, parts_removed := false,
        combined_created := false, combined_removed := false,
        preprocessed_created := preprocessed_created,
        preprocessed_removed := false,
        path_modified_at_end := preprocessed_created }
    else if !env.concat_ok then
      { success := false, parts_created := true, parts_removed := false,
        combined_created := false, combined_removed := false,
        preprocessed_created := preprocessed_created,
        preprocessed_removed := false,
        path_modified_at_end := preprocessed_created }
    else if env.has_music && !env.music_ok then
      { success := false, parts_created := true, parts_removed := false,
        combined_created := true, combined_removed := false,
        preprocessed_created := preprocessed_created,
        preprocessed_removed := false,
        path_modified_at_end := preprocessed_created }
    else if !env.has_music && env.copy_raises then
      { success := false, parts_created := true, parts_removed := false,
        combined_created := true, combined_removed := false,
        preprocessed_created := preprocessed_created,
        preprocessed_removed := preprocessed_created,
        path_modified_at_end := false }
    else
      { success := true, parts_created := true, parts_removed := true,
        combined_created := true, combined_removed := true,
        preprocessed_created := preprocessed_created,
        preprocessed_removed := preprocessed_created,
        path_modified_at_end := false }

/-- A run on an audio-less video whose concatenation step fails. -/
def envConcatFail : ExportEnv :=
  { has_active_video := true, has_audio_stream := false, add_silent_ok := true,
    audio_gen_raises := false, segment_videos := ["part_0.mp4"],
    concat_ok := false, has_music := false, music_ok := true, copy_raises := false }

/-- C5 counterexample: when concatenation fails, the run returns failure
with the segment part files still on disk, the preprocessed silent-audio
copy not deleted, and `active_video.path` still pointing at the
preprocessed copy — cleanup and path restoration are skipped on this
failure path. -/
theorem export_concat_failure_skips_cleanup :
    ExportPipeline.export envConcatFail =
      { success := false, parts_created := true, parts_removed := false,
        combined_created := false, combined_removed := false,
        preprocessed_created := true, preprocessed_removed := false,
        path_modified_at_end := true } := by
  decide

/-- C5 (amended): all intermediate part files and the pre-mix combined
file are removed only on SUCCESSFUL export runs, which also delete the
preprocessed silent-audio copy and restore the original path.  On failures
raised as exceptions (TTS generation raising, or `shutil.copy` raising
after concatenation) the preprocessed copy is deleted and the path
restored, but part files are never removed.  On failures returned as plain
`False` (no parts processed, failed concatenation, failed music mix)
nothing is cleaned up and the path is left pointing at the preprocessed
copy.  Each clause below quantifies over every run of the corresponding
kind. -/
theorem export_cleanup_behaviour :
    (∀ env : ExportEnv, (ExportPipeline.export env).success = true →
      (ExportPipeline.export env).parts_removed = true ∧
      (ExportPipeline.export env).combined_removed = true ∧
      (ExportPipeline.export env).preprocessed_removed
        = (ExportPipeline.export env).preprocessed_created ∧
      (ExportPipeline.export env).path_modified_at_end = false) ∧
    (∀ env : ExportEnv, (ExportPipeline.export env).success = false →
      (ExportPipeline.export env).parts_removed = false ∧
      (ExportPipeline.export env).combined_removed = false) ∧
    (∀ env : ExportEnv, env.has_active_video = true → env.audio_gen_raises = true →
      (ExportPipeline.export env).preprocessed_removed
        = (ExportPipeline.export env).preprocessed_created ∧
      (ExportPipeline.export env).path_modified_at_end = false ∧
      (ExportPipeline.export env).parts_removed = false) ∧
    (∀ env : ExportEnv, env.has_active_video = true → env.audio_gen_raises = false →
      env.segment_videos.isEmpty = false → env.concat_ok = true →
      env.has_music = false → env.copy_raises = true →
      (ExportPipeline.export env).parts_created = true ∧
      (ExportPipeline.export env).parts_removed = false ∧
      (ExportPipeline.export env).preprocessed_removed
        = (ExportPipeline.export env).preprocessed_created ∧
      (ExportPipeline.export env).path_modified_at_end = false) ∧
    (∀ env : ExportEnv, env.has_active_video = true → env.audio_gen_raises = false →
      env.segment_videos.isEmpty = true →
      (ExportPipeline.export env).success = false ∧
      (ExportPipeline.export env).parts_removed = false ∧
      (ExportPipeline.export env).combined_removed = false ∧
      (ExportPipeline.export env).preprocessed_removed = false ∧
      (ExportPipeline.export env).path_modified_at_end
        = (ExportPipeline.export env).preprocessed_created) ∧
    (∀ env : ExportEnv, env.has_active_video = true → env.audio_gen_raises = false →
      env.segment_videos.isEmpty = false → env.concat_ok = false →
      (ExportPipeline.export env).success = false ∧
      (ExportPipeline.export env).parts_created = true ∧
      (ExportPipeline.export env).parts_removed = false ∧
      (ExportPipeline.export env).combined_removed = false ∧
      (ExportPipeline.export env).preprocessed_removed = false ∧
      (ExportPipeline.export env).path_modified_at_end
        = (ExportPipeline.export env).preprocessed_created) ∧
    (∀ env : ExportEnv, env.has_active_video = true → env.audio_gen_raises = false →
      env.segment_videos.isEmpty = false → env.concat_ok = true →
      env.has_music = true → env.music_ok = false →
      (ExportPipeline.export env).success = false ∧
      (ExportPipeline.export env).parts_created = true ∧
      (ExportPipeline.export env).parts_removed = false ∧
      (ExportPipeline.export env).combined_removed = false ∧
      (ExportPipeline.export env).preprocessed_removed = false ∧
      (ExportPipeline.export env).path_modified_at_end
        = (ExportPipeline.export env).preprocessed_created) := by
  refine ⟨?_, ?_, ?_, ?_, ?_, ?_, ?_⟩ <;>
    (intro env
     obtain ⟨hav, has, aso, agr, sv, cok, hm, mok, cr⟩ := env
     cases hav <;> cases agr <;> cases sv <;> cases cok <;> cases hm <;>
       cases mok <;> cases cr <;> intros <;> simp_all [ExportPipeline.export])

/-- A fully successful run on an audio-less video. -/
def envSuccess : ExportEnv :=
  { has_active_video := true, has_audio_stream := false, add_silent_ok := true,
    audio_gen_raises := false, segment_videos := ["part_0.mp4"],
    concat_ok := true, has_music := false, music_ok := true, copy_raises := false }

/-- C5 witness: the success clause of `export_cleanup_behaviour` applied
to a concrete successful run. -/
theorem export_cleanup_behaviour_witness :
    (ExportPipeline.export envSuccess).parts_removed = true ∧
    (ExportPipeline.export envSuccess).combined_removed = true ∧
    (ExportPipeline.export envSuccess).preprocessed_removed
      = (ExportPipeline.export envSuccess).preprocessed_created ∧
    (ExportPipeline.export envSuccess).path_modified_at_end = false :=
  export_cleanup_behaviour.1 envSuccess (by decide)

/-! ## Word-timed subtitle chunker (`TTSService._generate_word_timed_subtitles`) -/

/-- One `WordBoundary` event from the synthesis stream: word text plus
offset and duration in 100-nanosecond ticks. -/
structure WordTiming where
  text : String
  offset : ℤ
  duration : ℤ
deriving DecidableEq, Repr

/-- Conversion from ticks to seconds: division by `10_000_000.0`. -/
def tickToSec (t : ℤ) : ℚ :=
  (t : ℚ) / 10000000

/-- Python's `word.endswith(p)` for a single-character suffix `p`. -/
def endsWithChar (s : String) (c : Char) : Bool :=
  match s.toList.getLast? with
  | some d => d = c
  | none => false

/-- `any(word.endswith(p) for p in sentence_enders)` with
`sentence_enders = {'.', '!', '?'}`. -/
def isSentenceEnd (w : String) : Bool :=
  (['.', '!', '?'] : List Char).any (endsWithChar w)

/-- The punctuation set of `word.lower().strip('.,!?;:')`. -/
def stripPunctChars : List Char :=
  ['.', ',', '!', '?', ';', ':']

/-- Python's `str.strip(chars)`: remove the given characters from both
ends. -/
def pyStripChars (cs : List Char) (s : String) : String :=
  String.mk (((s.toList.dropWhile (cs.contains ·)).reverse.dropWhile
    (cs.contains ·)).reverse)

/-- Python's `str.lower()` (ASCII-relevant part). -/
def lowerStr (s : String) : String :=
  String.mk (s.toList.map Char.toLower)

/-- The conjunction/pause token set
`{',', ';', ':', '-', 'and', 'but', 'or', 'so', 'yet', 'then', 'also'}`. -/
def pauseWords : List String :=
  [",", ";", ":", "-", "and", "but", "or", "so", "yet", "then", "also"]

/-- `word.lower().strip('.,!?;:') in pause_words`. -/
def isPauseWord (w : String) : Bool :=
  pauseWords.contains (pyStripChars stripPunctChars (lowerStr w))

/-- The per-word break decision of the chunking loop (lines 231-255 of
`src/backend/tts_service.py`): break on a sentence end once the chunk has
reached 70% of the maximum duration, on a pause word or a ≥ 150 ms silence
gap at 80%, unconditionally at 110%, and always on the final word; a break
below the minimum chunk duration is suppressed except on the final word. -/
def shouldBreakWord (maxD minD chunk_start : ℚ) (w : WordTiming)
    (rest : List WordTiming) : Bool :=
  let word_end := tickToSec (w.offset + w.duration)
  let chunk_duration := word_end - chunk_start
  let has_pause_after :=
    match rest.head? with
    | some n => decide (tickToSec n.offset - word_end > 3/20)
    | none => false
  let sb :=
    (decide (chunk_duration ≥ maxD * (7/10)) && isSentenceEnd w.text) ||
    (decide (chunk_duration ≥ maxD * (4/5)) && (isPauseWord w.text || has_pause_after)) ||
    decide (chunk_duration ≥ maxD * (11/10)) ||
    rest.isEmpty
  if decide (chunk_duration < minD) && !rest.isEmpty then false else sb

/-- The chunking loop: walk the words accumulating the current chunk;
when the break decision fires (and the chunk is non-empty, which is always
the case since the current word was just appended) emit the chunk and
restart at the next word's offset. -/
def chunkLoop (maxD minD : ℚ) : ℚ → List WordTiming → List WordTiming →
    List (List WordTiming)
  | _, _, [] => []
  | chunk_start, cur, w :: rest =>
    let cur' := cur ++ [w]
    if shouldBreakWord maxD minD chunk_start w rest && !cur'.isEmpty then
      cur' :: chunkLoop maxD minD
        ((rest.head?.map (fun n => tickToSec n.offset)).getD chunk_start) [] rest
    else
      chunkLoop maxD minD chunk_start cur' rest

/-- The chunk list produced by `_generate_word_timed_subtitles` for a
non-empty word-timing stream: duration targets are 4.0/2.0 seconds for
horizontal videos and 3.0/1.5 otherwise; the loop starts with
`current_chunk_start = 0.0`; an empty chunk list falls back to one chunk
holding every word. -/
def wordTimedChunks (orientation : String) (wts : List WordTiming) :
    List (List WordTiming) :=
  let maxD : ℚ := if orientation = "horizontal" then 4 else 3
  let minD : ℚ := if orientation = "horizontal" then 2 else 3/2
  let chunks := chunkLoop maxD minD 0 [] wts
  if chunks.isEmpty then [wts] else chunks

/-- One subtitle cue: start/end in seconds and the display text. -/
structure SubtitleCue where
  start : ℚ
  endTime : ℚ
  text : String
deriving DecidableEq, Repr

/-- The cue of one chunk: `start` is the first word's offset, `endTime`
the last word's offset plus duration, `text` the space-joined words. -/
def chunkCue (c : List WordTiming) : SubtitleCue :=
  { start := tickToSec ((c.head?.getD ⟨"", 0, 0⟩).offset)
    endTime := tickToSec ((c.getLast?.getD ⟨"", 0, 0⟩).offset
      + (c.getLast?.getD ⟨"", 0, 0⟩).duration)
    text := String.intercalate " " (c.map WordTiming.text) }

/-- The cue list of the word-timed chunker. -/
def wordTimedCues (orientation : String) (wts : List WordTiming) :
    List SubtitleCue :=
  (wordTimedChunks orientation wts).map chunkCue

/-- The measured total audio duration
`(word_timings[-1].offset + word_timings[-1].duration) / 1e7`. -/
def totalDurationSec (wts : List WordTiming) : ℚ :=
  match wts.getLast? with
  | some w => tickToSec (w.offset + w.duration)
  | none => 0

/-! ## SRT time formatting (`TTSService._format_srt_time`) -/

/-- Python's float floor division `a // b`. -/
def qfdiv (a b : ℚ) : ℚ :=
  (⌊a / b⌋ : ℤ)

/-- Python's float modulo `a % b` (sign of the divisor). -/
def qmod (a b : ℚ) : ℚ :=
  a - b * (⌊a / b⌋ : ℤ)

/-- Python's `int()`: truncation toward zero. -/
def pyInt (q : ℚ) : ℤ :=
  if 0 ≤ q then ⌊q⌋ else ⌈q⌉

/-- Python's `round()` to an integer: nearest, ties to even. -/
def pyRound (q : ℚ) : ℤ :=
  if q - ⌊q⌋ < 1/2 then ⌊q⌋
  else if 1/2 < q - ⌊q⌋ then ⌊q⌋ + 1
  else if ⌊q⌋ % 2 = 0 then ⌊q⌋ else ⌊q⌋ + 1

/-- The four raw fields of `_format_srt_time` before carry:
`hours = int(seconds // 3600)`, `minutes = int((seconds % 3600) // 60)`,
`secs = int(seconds % 60)`, `millis = round((seconds % 1) * 1000)`. -/
def srtFieldsRaw (seconds : ℚ) : ℤ × ℤ × ℤ × ℤ :=
  (pyInt (qfdiv seconds 3600),
   pyInt (qfdiv (qmod seconds 3600) 60),
   pyInt (qmod seconds 60),
   pyRound ((qmod seconds 1) * 1000))

/-- The millisecond-overflow carry of `_format_srt_time`: `millis = 1000`
rolls into seconds, then minutes, then hours. -/
def srtCarry (x : ℤ × ℤ × ℤ × ℤ) : ℤ × ℤ × ℤ × ℤ :=
  if 1000 ≤ x.2.2.2 then
    if 60 ≤ x.2.2.1 + 1 then
      if 60 ≤ x.2.1 + 1 then (x.1 + 1, 0, 0, 0)
      else (x.1, x.2.1 + 1, 0, 0)
    else (x.1, x.2.1, x.2.2.1 + 1, 0)
  else x

/-- The `HH`, `MM`, `SS`, `mmm` fields rendered by `_format_srt_time`. -/
def srtFields (seconds : ℚ) : ℤ × ℤ × ℤ × ℤ :=
  srtCarry (srtFieldsRaw seconds)

/-- Python's `f"{n:02d}"`. -/
def pad2 (n : ℤ) : String :=
  if 0 ≤ n ∧ n < 10 then "0" ++ toString n else toString n

/-- Python's `f"{n:03d}"`. -/
def pad3 (n : ℤ) : String :=
  if 0 ≤ n ∧ n < 10 then "00" ++ toString n
  else if 0 ≤ n ∧ n < 100 then "0" ++ toString n
  else toString n

/-- `TTSService._format_srt_time`: `HH:MM:SS,mmm` with rounded
milliseconds and overflow carry. -/
def TTSService.format_srt_time (seconds : ℚ) : String :=
  pad2 (srtFields seconds).1 ++ ":" ++ pad2 (srtFields seconds).2.1 ++ ":"
    ++ pad2 (srtFields seconds).2.2.1 ++ "," ++ pad3 (srtFields seconds).2.2.2

/-- Python's `str.split()` (split on whitespace runs, no empty pieces). -/
def pySplitAux : List Char → List Char → List String
  | [], acc => if acc.isEmpty then [] else [String.mk acc.reverse]
  | c :: cs, acc =>
    if c.isWhitespace then
      if acc.isEmpty then pySplitAux cs []
      else String.mk acc.reverse :: pySplitAux cs []
    else pySplitAux cs (c :: acc)

/-- Python's `text.split()`. -/
def pySplit (s : String) : List String :=
  pySplitAux s.toList []

/-- The character-budget word grouping of
`_generate_accurate_subtitles_fallback`: accumulate words until the
running length (word lengths plus one per word) reaches the target. -/
def splitByBudget (target : ℕ) : List String → List String → ℕ →
    List (List String)
  | [], cur, _ => if cur.isEmpty then [] else [cur]
  | w :: rest, cur, len =>
    let cur' := cur ++ [w]
    let len' := len + w.length + 1
    if target ≤ len' then cur' :: splitByBudget target rest [] 0
    else splitByBudget target rest cur' len'

/-- `TTSService._generate_accurate_subtitles_fallback`: used only when no
word-timing data is available; splits the text by a character budget
(100 chars horizontal, 45 otherwise) and spreads the chunks evenly across
the probed audio duration. -/
def TTSService.generate_accurate_subtitles_fallback (text : String)
    (audio_duration : ℚ) (orientation : String) : String :=
  let target : ℕ := if orientation = "horizontal" then 100 else 45
  let chunks0 := (splitByBudget target (pySplit text) [] 0).map
    (String.intercalate " ")
  let chunks := if chunks0.isEmpty then [text] else chunks0
  let chunk_duration := audio_duration / (chunks.length : ℚ)
  String.join (chunks.enum.map (fun p =>
    toString (p.1 + 1) ++ "\n"
      ++ TTSService.format_srt_time ((p.1 : ℚ) * chunk_duration) ++ " --> "
      ++ TTSService.format_srt_time
        (if p.1 = chunks.length - 1 then audio_duration
         else ((p.1 : ℚ) + 1) * chunk_duration) ++ "\n"
      ++ p.2 ++ "\n\n"))

/-- `TTSService._generate_word_timed_subtitles`: the SRT text assembled
from the word-timed cues (or the fallback with an assumed 10-second
duration when the stream is empty). -/
def TTSService.generate_word_timed_subtitles (word_timings : List WordTiming)
    (text : String) (orientation : String) : String :=
  if word_timings.isEmpty then
    TTSService.generate_accurate_subtitles_fallback text 10 orientation
  else
    String.join ((wordTimedCues orientation word_timings).enum.map (fun p =>
      toString (p.1 + 1) ++ "\n"
        ++ TTSService.format_srt_time p.2.start ++ " --> "
        ++ TTSService.format_srt_time p.2.endTime ++ "\n"
        ++ p.2.text ++ "\n\n"))


/-! ## Claim C9: SRT timestamp rounding -/

theorem qmod_eq_fract (a b : ℚ) (hb : b ≠ 0) : qmod a b = b * Int.fract (a / b) := by
  have hx : b * (a / b) = a := by field_simp
  unfold qmod
  rw [Int.fract, mul_sub, hx]

theorem qmod_nonneg (a b : ℚ) (hb : 0 < b) : 0 ≤ qmod a b := by
  rw [qmod_eq_fract a b hb.ne']
  exact mul_nonneg hb.le (Int.fract_nonneg _)

theorem qmod_lt (a b : ℚ) (hb : 0 < b) : qmod a b < b := by
  rw [qmod_eq_fract a b hb.ne']
  calc b * Int.fract (a / b) < b * 1 := mul_lt_mul_of_pos_left (Int.fract_lt_one _) hb
    _ = b := mul_one b

theorem qmod_one (t : ℚ) : qmod t 1 = Int.fract t := by
  rw [qmod_eq_fract t 1 one_ne_zero, div_one, one_mul]

theorem pyInt_of_nonneg {q : ℚ} (h : 0 ≤ q) : pyInt q = ⌊q⌋ :=
  if_pos h

theorem pyInt_qfdiv (a b : ℚ) (ha : 0 ≤ a) (hb : 0 < b) :
    pyInt (qfdiv a b) = ⌊a / b⌋ := by
  unfold qfdiv
  rw [pyInt_of_nonneg, Int.floor_intCast]
  exact_mod_cast Int.floor_nonneg.mpr (div_nonneg ha hb.le)

theorem pyRound_spec (q : ℚ) :
    ⌊q⌋ ≤ pyRound q ∧ pyRound q ≤ ⌊q⌋ + 1 ∧ |(pyRound q : ℚ) - q| ≤ 1/2 := by
  have h0 : (⌊q⌋ : ℚ) ≤ q := Int.floor_le q
  have h1 : q < ⌊q⌋ + 1 := Int.lt_floor_add_one q
  unfold pyRound
  split_ifs with hr hr2 he
  · exact ⟨le_refl _, by omega, by rw [abs_le]; constructor <;> linarith⟩
  · refine ⟨by omega, by omega, ?_⟩
    rw [abs_le]
    push_cast
    constructor <;> linarith
  · have hhalf : q - ⌊q⌋ = 1/2 := le_antisymm (not_lt.mp hr2) (not_lt.mp hr)
    exact ⟨le_refl _, by omega, by rw [abs_le]; constructor <;> linarith⟩
  · have hhalf : q - ⌊q⌋ = 1/2 := le_antisymm (not_lt.mp hr2) (not_lt.mp hr)
    refine ⟨by omega, by omega, ?_⟩
    rw [abs_le]
    push_cast
    constructor <;> linarith

theorem srtFieldsRaw_spec (t : ℚ) (ht : 0 ≤ t) :
    0 ≤ (srtFieldsRaw t).1 ∧
    0 ≤ (srtFieldsRaw t).2.1 ∧ (srtFieldsRaw t).2.1 < 60 ∧
    0 ≤ (srtFieldsRaw t).2.2.1 ∧ (srtFieldsRaw t).2.2.1 < 60 ∧
    0 ≤ (srtFieldsRaw t).2.2.2 ∧ (srtFieldsRaw t).2.2.2 ≤ 1000 ∧
    3600 * (srtFieldsRaw t).1 + 60 * (srtFieldsRaw t).2.1 + (srtFieldsRaw t).2.2.1 = ⌊t⌋ ∧
    |((srtFieldsRaw t).2.2.2 : ℚ) - Int.fract t * 1000| ≤ 1/2 := by
  have h3600 : (0:ℚ) < 3600 := by norm_num
  have h60 : (0:ℚ) < 60 := by norm_num
  have hr1 : 0 ≤ qmod t 3600 := qmod_nonneg t 3600 h3600
  have hr1lt : qmod t 3600 < 3600 := qmod_lt t 3600 h3600
  have hr2 : 0 ≤ qmod t 60 := qmod_nonneg t 60 h60
  have hr2lt : qmod t 60 < 60 := qmod_lt t 60 h60
  have hhours : (srtFieldsRaw t).1 = ⌊t / 3600⌋ := pyInt_qfdiv t 3600 ht h3600
  have hminutes : (srtFieldsRaw t).2.1 = ⌊qmod t 3600 / 60⌋ :=
    pyInt_qfdiv (qmod t 3600) 60 hr1 h60
  have hsecs : (srtFieldsRaw t).2.2.1 = ⌊qmod t 60⌋ := pyInt_of_nonneg hr2
  have hmillis : (srtFieldsRaw t).2.2.2 = pyRound (qmod t 1 * 1000) := rfl
  have hfract0 : 0 ≤ Int.fract t * 1000 :=
    mul_nonneg (Int.fract_nonneg t) (by norm_num)
  have hfract1 : Int.fract t * 1000 < 1000 := by
    calc Int.fract t * 1000 < 1 * 1000 :=
          mul_lt_mul_of_pos_right (Int.fract_lt_one t) (by norm_num)
      _ = 1000 := one_mul 1000
  obtain ⟨hpr1, hpr2, hpr3⟩ := pyRound_spec (qmod t 1 * 1000)
  have hfloor0 : 0 ≤ ⌊qmod t 1 * 1000⌋ := by
    rw [qmod_one]
    exact Int.floor_nonneg.mpr hfract0
  have hfloorlt : ⌊qmod t 1 * 1000⌋ < 1000 := by
    rw [qmod_one]
    exact Int.floor_lt.mpr (by exact_mod_cast hfract1)
  have hq1 : qmod t 3600 / 60 = t / 60 - ((60 * ⌊t / 3600⌋ : ℤ) : ℚ) := by
    unfold qmod
    push_cast
    ring
  have e1 : ⌊qmod t 3600 / 60⌋ = ⌊t / 60⌋ - 60 * ⌊t / 3600⌋ := by
    rw [hq1, Int.floor_sub_int]
  have hq2 : qmod t 60 = t - ((60 * ⌊t / 60⌋ : ℤ) : ℚ) := by
    unfold qmod
    push_cast
    ring
  have e2 : ⌊qmod t 60⌋ = ⌊t⌋ - 60 * ⌊t / 60⌋ := by
    rw [hq2, Int.floor_sub_int]
  refine ⟨?_, ?_, ?_, ?_, ?_, ?_, ?_, ?_, ?_⟩
  · rw [hhours]
    exact Int.floor_nonneg.mpr (div_nonneg ht h3600.le)
  · rw [hminutes]
    exact Int.floor_nonneg.mpr (div_nonneg hr1 h60.le)
  · rw [hminutes]
    refine Int.floor_lt.mpr ?_
    push_cast
    rw [div_lt_iff₀ h60]
    linarith
  · rw [hsecs]
    exact Int.floor_nonneg.mpr hr2
  · rw [hsecs]
    exact Int.floor_lt.mpr (by exact_mod_cast hr2lt)
  · rw [hmillis]
    omega
  · rw [hmillis]
    omega
  · rw [hhours, hminutes, hsecs, e1, e2]
    ring
  · rw [hmillis, ← qmod_one]
    exact hpr3

/-- C9: on every non-negative time `t`, the fields rendered by
`_format_srt_time` satisfy `0 ≤ millis < 1000`, `0 ≤ secs < 60`,
`0 ≤ minutes < 60`, and together they represent `t` rounded to the nearest
millisecond (the rounding is Python's round-half-to-even, and the
1000-millisecond overflow is carried into seconds, minutes and hours). -/
theorem srt_time_rounded_fields (t : ℚ) (ht : 0 ≤ t) :
    0 ≤ (srtFields t).1 ∧
    0 ≤ (srtFields t).2.1 ∧ (srtFields t).2.1 < 60 ∧
    0 ≤ (srtFields t).2.2.1 ∧ (srtFields t).2.2.1 < 60 ∧
    0 ≤ (srtFields t).2.2.2 ∧ (srtFields t).2.2.2 < 1000 ∧
    |((3600000 * (srtFields t).1 + 60000 * (srtFields t).2.1
        + 1000 * (srtFields t).2.2.1 + (srtFields t).2.2.2 : ℤ) : ℚ) - 1000 * t| ≤ 1/2 := by
  obtain ⟨h1, h2, h3, h4, h5, h6, h7, h8, h9⟩ := srtFieldsRaw_spec t ht
  obtain ⟨x, hEq⟩ : ∃ x, srtFieldsRaw t = x := ⟨_, rfl⟩
  obtain ⟨h, m, s, ms⟩ := x
  rw [hEq] at h1 h2 h3 h4 h5 h6 h7 h8 h9
  dsimp only at h1 h2 h3 h4 h5 h6 h7 h8 h9
  have key : ∀ h' m' s' ms' : ℤ,
      3600000 * h' + 60000 * m' + 1000 * s' + ms' = 1000 * ⌊t⌋ + ms →
      |((3600000 * h' + 60000 * m' + 1000 * s' + ms' : ℤ) : ℚ) - 1000 * t| ≤ 1/2 := by
    intro h' m' s' ms' heq
    rw [heq]
    have hfr : (⌊t⌋ : ℚ) = t - Int.fract t := by rw [Int.fract]; ring
    rw [abs_le] at h9 ⊢
    push_cast
    constructor <;> linarith [h9.1, h9.2]
  unfold srtFields
  rw [hEq]
  unfold srtCarry
  split_ifs with c1 c2 c3 <;> dsimp only at *
  · exact ⟨by omega, by omega, by omega, by omega, by omega, by omega, by omega,
      key _ _ _ _ (by omega)⟩
  · exact ⟨by omega, by omega, by omega, by omega, by omega, by omega, by omega,
      key _ _ _ _ (by omega)⟩
  · exact ⟨by omega, by omega, by omega, by omega, by omega, by omega, by omega,
      key _ _ _ _ (by omega)⟩
  · exact ⟨by omega, by omega, by omega, by omega, by omega, by omega, by omega,
      key _ _ _ _ (by omega)⟩

/-- C9 witness: the field theorem applied at `t = 7/2` seconds. -/
theorem srt_time_rounded_fields_witness :
    0 ≤ (srtFields (7/2)).1 ∧
    0 ≤ (srtFields (7/2)).2.1 ∧ (srtFields (7/2)).2.1 < 60 ∧
    0 ≤ (srtFields (7/2)).2.2.1 ∧ (srtFields (7/2)).2.2.1 < 60 ∧
    0 ≤ (srtFields (7/2)).2.2.2 ∧ (srtFields (7/2)).2.2.2 < 1000 ∧
    |((3600000 * (srtFields (7/2)).1 + 60000 * (srtFields (7/2)).2.1
        + 1000 * (srtFields (7/2)).2.2.1 + (srtFields (7/2)).2.2.2 : ℤ) : ℚ)
      - 1000 * (7/2)| ≤ 1/2 :=
  srt_time_rounded_fields (7/2) (by norm_num)

/-! ## Claim C6: Scenario E -/

/-- The Scenario E word-timing stream:
`[("Hello", 0, 5000000), ("world.", 5000000, 5000000)]` in ticks. -/
def scenarioE : List WordTiming :=
  [⟨"Hello", 0, 5000000⟩, ⟨"world.", 5000000, 5000000⟩]

theorem shouldBreakWord_last (maxD minD cs : ℚ) (w : WordTiming) :
    shouldBreakWord maxD minD cs w [] = true := by
  unfold shouldBreakWord
  simp

theorem scenarioE_first_no_break :
    shouldBreakWord 4 2 0 ⟨"Hello", 0, 5000000⟩ [⟨"world.", 5000000, 5000000⟩] = false := by
  unfold shouldBreakWord
  norm_num [tickToSec]

theorem scenarioE_chunks :
    wordTimedChunks "horizontal" scenarioE = [scenarioE] := by
  unfold wordTimedChunks scenarioE
  simp only [if_pos rfl]
  rw [chunkLoop, chunkLoop]
  simp [scenarioE_first_no_break, shouldBreakWord_last, chunkLoop]

theorem scenarioE_cue :
    wordTimedCues "horizontal" scenarioE = [⟨0, 1, "Hello world."⟩] := by
  unfold wordTimedCues
  rw [scenarioE_chunks]
  show [chunkCue scenarioE] = [⟨0, 1, "Hello world."⟩]
  unfold chunkCue scenarioE
  simp only [List.head?, List.getLast?, Option.getD, List.map, List.cons.injEq, and_true]
  rw [SubtitleCue.mk.injEq]
  refine ⟨by norm_num [tickToSec], by norm_num [tickToSec], by decide⟩

theorem srtFields_zero : srtFields 0 = (0, 0, 0, 0) := by
  norm_num [srtFields, srtFieldsRaw, srtCarry, qfdiv, qmod, pyInt, pyRound]

theorem srtFields_one : srtFields 1 = (0, 0, 1, 0) := by
  norm_num [srtFields, srtFieldsRaw, srtCarry, qfdiv, qmod, pyInt, pyRound]

theorem format_srt_time_zero : TTSService.format_srt_time 0 = "00:00:00,000" := by
  unfold TTSService.format_srt_time
  rw [srtFields_zero]
  decide

theorem format_srt_time_one : TTSService.format_srt_time 1 = "00:00:01,000" := by
  unfold TTSService.format_srt_time
  rw [srtFields_one]
  decide

/-- C6: for the Scenario E word timings with horizontal orientation the
chunker emits exactly one cue, spanning `[0,1)` seconds with text
"Hello world." (the sentence-ending final word closes the chunk even
though its 1-second duration is below the 2-second minimum), and the
rendered SRT is the single block `00:00:00,000 --> 00:00:01,000`. -/
theorem scenarioE_single_cue :
    wordTimedCues "horizontal" scenarioE = [⟨0, 1, "Hello world."⟩] ∧
    TTSService.generate_word_timed_subtitles scenarioE "Hello world." "horizontal"
      = "1\n00:00:00,000 --> 00:00:01,000\nHello world.\n\n" := by
  refine ⟨scenarioE_cue, ?_⟩
  unfold TTSService.generate_word_timed_subtitles
  rw [if_neg (by decide)]
  rw [scenarioE_cue]
  simp only [List.enum, List.enumFrom, List.map]
  rw [format_srt_time_zero, format_srt_time_one]
  rfl

/-! ## Claim C4: chunker coverage -/

/-- Ascending, non-overlapping word order in ticks: each word ends no
later than the next one begins, and offsets strictly increase. -/
def wtOrdered (a b : WordTiming) : Prop :=
  a.offset + a.duration ≤ b.offset ∧ a.offset < b.offset

instance : DecidableRel wtOrdered :=
  fun _ _ => inferInstanceAs (Decidable (_ ∧ _))

theorem tickToSec_le {a b : ℤ} (h : a ≤ b) : tickToSec a ≤ tickToSec b := by
  unfold tickToSec
  have hc : (a : ℚ) ≤ (b : ℚ) := by exact_mod_cast h
  linarith

theorem tickToSec_lt {a b : ℤ} (h : a < b) : tickToSec a < tickToSec b := by
  unfold tickToSec
  have hc : (a : ℚ) < (b : ℚ) := by exact_mod_cast h
  linarith

theorem chunkLoop_flatten (maxD minD : ℚ) :
    ∀ ws : List WordTiming, ws ≠ [] → ∀ (cs : ℚ) (cur : List WordTiming),
      (chunkLoop maxD minD cs cur ws).flatten = cur ++ ws := by
  intro ws
  induction ws with
  | nil => intro h; exact absurd rfl h
  | cons w rest ih =>
    intro _ cs cur
    rw [chunkLoop]
    by_cases hb : (shouldBreakWord maxD minD cs w rest && !(cur ++ [w]).isEmpty) = true
    · rw [if_pos hb]
      cases rest with
      | nil => simp [chunkLoop]
      | cons n rest2 =>
        rw [List.flatten_cons, ih (by simp)]
        simp
    · rw [if_neg hb]
      cases rest with
      | nil => exact absurd (by simp [shouldBreakWord_last]) hb
      | cons n rest2 =>
        rw [ih (by simp)]
        simp

theorem chunkLoop_groups_ne_nil (maxD minD : ℚ) :
    ∀ (ws : List WordTiming) (cs : ℚ) (cur g : List WordTiming),
      g ∈ chunkLoop maxD minD cs cur ws → g ≠ [] := by
  intro ws
  induction ws with
  | nil =>
    intro cs cur g hg
    rw [chunkLoop] at hg
    cases hg
  | cons w rest ih =>
    intro cs cur g hg
    rw [chunkLoop] at hg
    by_cases hb : (shouldBreakWord maxD minD cs w rest && !(cur ++ [w]).isEmpty) = true
    · rw [if_pos hb] at hg
      rcases List.mem_cons.mp hg with rfl | hg2
      · simp
      · exact ih _ _ _ hg2
    · rw [if_neg hb] at hg
      exact ih _ _ _ hg

theorem wordTimedChunks_eq (o : String) (wts : List WordTiming) :
    wordTimedChunks o wts =
      if (chunkLoop (if o = "horizontal" then (4:ℚ) else 3)
            (if o = "horizontal" then (2:ℚ) else 3/2) 0 [] wts).isEmpty
      then [wts]
      else chunkLoop (if o = "horizontal" then (4:ℚ) else 3)
            (if o = "horizontal" then (2:ℚ) else 3/2) 0 [] wts := rfl

theorem chunksIf_flatten (maxD minD : ℚ) (wts : List WordTiming) (h : wts ≠ []) :
    (if (chunkLoop maxD minD 0 [] wts).isEmpty then [wts]
      else chunkLoop maxD minD 0 [] wts).flatten = wts := by
  split
  · simp
  · rw [chunkLoop_flatten maxD minD wts h]
    simp

theorem wordTimedChunks_flatten (o : String) (wts : List WordTiming) (h : wts ≠ []) :
    (wordTimedChunks o wts).flatten = wts := by
  rw [wordTimedChunks_eq]
  exact chunksIf_flatten _ _ wts h

theorem chunksIf_groups (maxD minD : ℚ) (wts : List WordTiming) (h : wts ≠ []) :
    ∀ g ∈ (if (chunkLoop maxD minD 0 [] wts).isEmpty then [wts]
      else chunkLoop maxD minD 0 [] wts), g ≠ [] := by
  intro g hg
  split at hg
  · rcases List.mem_singleton.mp hg with rfl
    exact h
  · exact chunkLoop_groups_ne_nil maxD minD wts _ _ g hg

theorem wordTimedChunks_groups (o : String) (wts : List WordTiming) (h : wts ≠ []) :
    ∀ g ∈ wordTimedChunks o wts, g ≠ [] := by
  rw [wordTimedChunks_eq]
  exact chunksIf_groups _ _ wts h

theorem chain_head_offset_le :
    ∀ g : List WordTiming, List.Chain' wtOrdered g →
      ∀ x ∈ g.head?, ∀ y ∈ g.getLast?, x.offset ≤ y.offset := by
  intro g
  induction g with
  | nil => intro _ x hx; cases hx
  | cons a t ih =>
    intro hc x hx y hy
    cases t with
    | nil =>
      rw [Option.mem_def, List.head?_cons, Option.some.injEq] at hx
      rw [Option.mem_def, List.getLast?_singleton, Option.some.injEq] at hy
      subst hx
      subst hy
      exact le_refl _
    | cons b t2 =>
      rw [Option.mem_def, List.head?_cons, Option.some.injEq] at hx
      rw [List.getLast?_cons_cons] at hy
      have hab : wtOrdered a b := (List.chain'_cons.mp hc).1
      have hby : b.offset ≤ y.offset :=
        ih (List.chain'_cons.mp hc).2 b (by simp) y hy
      rw [← hx]
      exact le_trans hab.2.le hby

theorem word_end_le_getLast :
    ∀ l : List WordTiming, List.Chain' wtOrdered l →
      (∀ w ∈ l, 0 ≤ w.duration) →
      ∀ w ∈ l, ∀ z ∈ l.getLast?,
        w.offset + w.duration ≤ z.offset + z.duration := by
  intro l
  induction l with
  | nil => intro _ _ w hw; cases hw
  | cons a t ih =>
    intro hc hd w hw z hz
    cases t with
    | nil =>
      rw [Option.mem_def, List.getLast?_singleton, Option.some.injEq] at hz
      rcases List.mem_singleton.mp hw with rfl
      subst hz
      exact le_refl _
    | cons b t2 =>
      rw [List.getLast?_cons_cons] at hz
      rcases List.mem_cons.mp hw with rfl | hw2
      · have hab : wtOrdered w b := (List.chain'_cons.mp hc).1
        have hbz := ih (List.chain'_cons.mp hc).2
          (fun x hx => hd x (List.mem_cons_of_mem _ hx)) b (by simp) z hz
        have hbdur : 0 ≤ b.duration := hd b (by simp)
        linarith [hab.1]
      · exact ih (List.chain'_cons.mp hc).2
          (fun x hx => hd x (List.mem_cons_of_mem _ hx)) w hw2 z hz

theorem chain'_imp_mem {α : Type _} {R S : α → α → Prop} :
    ∀ l : List α, (∀ a ∈ l, ∀ b ∈ l, R a b → S a b) → l.Chain' R → l.Chain' S := by
  intro l
  induction l with
  | nil => intro _ _; exact List.chain'_nil
  | cons a t ih =>
    intro himp hc
    cases t with
    | nil => exact List.chain'_singleton a
    | cons b t2 =>
      rw [List.chain'_cons] at hc ⊢
      refine ⟨himp a (by simp) b (by simp) hc.1, ?_⟩
      exact ih (fun x hx y hy => himp x (List.mem_cons_of_mem a hx)
        y (List.mem_cons_of_mem a hy)) hc.2

theorem cue_head_rel :
    ∀ (t : List SubtitleCue) (a : SubtitleCue),
      (∀ c ∈ a :: t, c.start ≤ c.endTime) →
      List.Chain' (fun c1 c2 => c1.start < c2.start ∧ c1.endTime ≤ c2.start) (a :: t) →
      ∀ b ∈ t, b.start > a.start ∧ a.endTime ≤ b.start := by
  intro t
  induction t with
  | nil => intro a _ _ b hb; cases hb
  | cons b t2 ih =>
    intro a hwf hc c hc2
    have hab := (List.chain'_cons.mp hc).1
    rcases List.mem_cons.mp hc2 with rfl | hmem
    · exact ⟨hab.1, hab.2⟩
    · have hbc := ih b (fun x hx => hwf x (List.mem_cons_of_mem a hx))
        (List.chain'_cons.mp hc).2 c hmem
      refine ⟨lt_trans hab.1 hbc.1, ?_⟩
      have hbwf : b.start ≤ b.endTime := hwf b (by simp)
      linarith [hab.2, hbc.2]

theorem cue_chain_pairwise :
    ∀ l : List SubtitleCue, (∀ c ∈ l, c.start ≤ c.endTime) →
      List.Chain' (fun c1 c2 => c1.start < c2.start ∧ c1.endTime ≤ c2.start) l →
      List.Pairwise (fun c1 c2 => c1.start < c2.start ∧ c1.endTime ≤ c2.start) l := by
  intro l
  induction l with
  | nil => intro _ _; exact List.Pairwise.nil
  | cons a t ih =>
    intro hwf hc
    refine List.pairwise_cons.mpr ⟨?_, ?_⟩
    · intro b hb
      exact cue_head_rel t a hwf hc b hb
    · exact ih (fun c hcm => hwf c (List.mem_cons_of_mem a hcm)) hc.tail

/-- C4: for every non-empty word-timing stream in ascending,
non-overlapping tick order with non-negative durations, the chunker emits
at least one cue, the cues are strictly ordered and pairwise
non-overlapping, and no cue's end exceeds the total audio duration (the
last word's offset plus duration). -/
theorem chunker_coverage (o : String) (wts : List WordTiming)
    (hne : wts ≠ [])
    (hchain : List.Chain' wtOrdered wts)
    (hdur : ∀ w ∈ wts, 0 ≤ w.duration) :
    wordTimedCues o wts ≠ [] ∧
    List.Pairwise (fun c1 c2 => c1.start < c2.start ∧ c1.endTime ≤ c2.start)
      (wordTimedCues o wts) ∧
    ∀ c ∈ wordTimedCues o wts, c.endTime ≤ totalDurationSec wts := by
  have hflat := wordTimedChunks_flatten o wts hne
  have hgroups := wordTimedChunks_groups o wts hne
  have hnil : [] ∉ wordTimedChunks o wts := fun hmem => (hgroups [] hmem) rfl
  have hch : List.Chain' wtOrdered ((wordTimedChunks o wts).flatten) := by
    rw [hflat]; exact hchain
  obtain ⟨hin, hbd⟩ := (List.chain'_flatten hnil).mp hch
  have hsub : ∀ g ∈ wordTimedChunks o wts, ∀ x ∈ g, x ∈ wts := by
    intro g hg x hx
    rw [← hflat]
    exact List.mem_flatten.mpr ⟨g, hg, hx⟩
  have hwf : ∀ g ∈ wordTimedChunks o wts, (chunkCue g).start ≤ (chunkCue g).endTime := by
    intro g hg
    have hgne := hgroups g hg
    obtain ⟨z, hz⟩ := Option.isSome_iff_exists.mp (List.getLast?_isSome.mpr hgne)
    obtain ⟨a, ha⟩ := Option.isSome_iff_exists.mp (List.head?_isSome.mpr hgne)
    have hao : a.offset ≤ z.offset :=
      chain_head_offset_le g (hin g hg) a (Option.mem_def.mpr ha) z (Option.mem_def.mpr hz)
    have hzd : 0 ≤ z.duration :=
      hdur z (hsub g hg z (List.mem_of_mem_getLast? (Option.mem_def.mpr hz)))
    show tickToSec ((g.head?.getD ⟨"", 0, 0⟩).offset)
      ≤ tickToSec ((g.getLast?.getD ⟨"", 0, 0⟩).offset + (g.getLast?.getD ⟨"", 0, 0⟩).duration)
    rw [ha, hz]
    exact tickToSec_le (by simp only [Option.getD_some]; linarith)
  have hcueChain : List.Chain' (fun c1 c2 => c1.start < c2.start ∧ c1.endTime ≤ c2.start)
      (wordTimedCues o wts) := by
    unfold wordTimedCues
    rw [List.chain'_map]
    refine chain'_imp_mem _ ?_ hbd
    intro g1 hg1 g2 hg2 hR
    have hg1ne := hgroups g1 hg1
    have hg2ne := hgroups g2 hg2
    obtain ⟨x, hx⟩ := Option.isSome_iff_exists.mp (List.getLast?_isSome.mpr hg1ne)
    obtain ⟨y, hy⟩ := Option.isSome_iff_exists.mp (List.head?_isSome.mpr hg2ne)
    obtain ⟨a1, ha1⟩ := Option.isSome_iff_exists.mp (List.head?_isSome.mpr hg1ne)
    have hxy : wtOrdered x y := hR x (Option.mem_def.mpr hx) y (Option.mem_def.mpr hy)
    have ha1x : a1.offset ≤ x.offset :=
      chain_head_offset_le g1 (hin g1 hg1) a1 (Option.mem_def.mpr ha1) x (Option.mem_def.mpr hx)
    constructor
    · show tickToSec ((g1.head?.getD ⟨"", 0, 0⟩).offset)
        < tickToSec ((g2.head?.getD ⟨"", 0, 0⟩).offset)
      rw [ha1, hy]
      exact tickToSec_lt (by simp only [Option.getD_some]; exact lt_of_le_of_lt ha1x hxy.2)
    · show tickToSec ((g1.getLast?.getD ⟨"", 0, 0⟩).offset
          + (g1.getLast?.getD ⟨"", 0, 0⟩).duration)
        ≤ tickToSec ((g2.head?.getD ⟨"", 0, 0⟩).offset)
      rw [hx, hy]
      exact tickToSec_le (by simp only [Option.getD_some]; exact hxy.1)
  refine ⟨?_, ?_, ?_⟩
  · intro hcue
    apply hne
    have : wordTimedChunks o wts = [] := by
      have := congrArg List.length hcue
      simpa [wordTimedCues] using List.map_eq_nil_iff.mp hcue
    rw [← hflat, this]
    rfl
  · refine cue_chain_pairwise _ ?_ hcueChain
    intro c hc
    obtain ⟨g, hg, rfl⟩ := List.mem_map.mp hc
    exact hwf g hg
  · intro c hc
    obtain ⟨g, hg, rfl⟩ := List.mem_map.mp hc
    have hgne := hgroups g hg
    obtain ⟨z, hz⟩ := Option.isSome_iff_exists.mp (List.getLast?_isSome.mpr hgne)
    obtain ⟨L, hL⟩ := Option.isSome_iff_exists.mp (List.getLast?_isSome.mpr hne)
    have hzw : z ∈ wts := hsub g hg z (List.mem_of_mem_getLast? (Option.mem_def.mpr hz))
    have hzL : z.offset + z.duration ≤ L.offset + L.duration :=
      word_end_le_getLast wts hchain hdur z hzw L (Option.mem_def.mpr hL)
    show tickToSec ((g.getLast?.getD ⟨"", 0, 0⟩).offset
        + (g.getLast?.getD ⟨"", 0, 0⟩).duration) ≤ totalDurationSec wts
    rw [hz]
    unfold totalDurationSec
    rw [hL]
    exact tickToSec_le (by simp only [Option.getD_some]; exact hzL)

/-- C4 witness: the coverage theorem applied to the Scenario E stream. -/
theorem chunker_coverage_witness :
    wordTimedCues "horizontal" scenarioE ≠ [] ∧
    List.Pairwise (fun c1 c2 => c1.start < c2.start ∧ c1.endTime ≤ c2.start)
      (wordTimedCues "horizontal" scenarioE) ∧
    ∀ c ∈ wordTimedCues "horizontal" scenarioE, c.endTime ≤ totalDurationSec scenarioE :=
  chunker_coverage "horizontal" scenarioE (by decide)
    (List.chain'_cons.mpr ⟨⟨by decide, by decide⟩, List.chain'_singleton _⟩)
    (by decide)
